import Mathlib

/-!
Shallow embedding of `src/app/security/policies.py` (module
`app.security.policies`): adaptive encryption and access-control policies
for storage locations. Python byte strings are `List Nat`, Python `str`
values are Lean `String`, Python sets of strings are `Finset String`,
`Optional[T]` is `Option T`, raised exceptions are `Except SecError`.
The process environment (`os.getenv`) is passed explicitly as a function
`String → Option String`.
-/

/-- Python `bytes` payloads, one `Nat` per byte. -/
abbrev Bytes := List Nat

/-- The process environment: `os.getenv` as an explicit parameter. -/
abbrev EnvMap := String → Option String

/-- The exceptions `policies.py` raises: `AuthorizationError(PermissionError)`,
`EncryptionError(RuntimeError)` and plain `ValueError` (used both for
configuration failures and for unknown-location lookups). -/
inductive SecError where
  | authorizationError (msg : String)
  | encryptionError (msg : String)
  | valueError (msg : String)
deriving DecidableEq

/-- A single-quote character, used when mirroring Python string reprs. -/
def squoteChar : Char := Char.ofNat 39

/-- Python repr of a string in quotes, as f-strings render `'{x}'`. -/
def quoted (s : String) : String := String.singleton squoteChar ++ s ++ String.singleton squoteChar

/-- Python repr of a list of strings, as `f"{sorted(roles)}"` renders it:
brackets, single-quoted elements, comma-space separators. -/
def pyListRepr (l : List String) : String :=
  "[" ++ String.intercalate ", " (l.map quoted) ++ "]"

/-- Python `str.isspace` on the ASCII whitespace characters `str.strip`
removes (space, tab, newline, carriage return, vertical tab, form feed). -/
def pyIsSpace (c : Char) : Bool :=
  c = ' ' || c = Char.ofNat 9 || c = Char.ofNat 10 || c = Char.ofNat 13 ||
    c = Char.ofNat 11 || c = Char.ofNat 12

/-- Python `str.strip()` on a character list. -/
def pyStripChars (l : List Char) : List Char :=
  ((l.dropWhile pyIsSpace).reverse.dropWhile pyIsSpace).reverse

/-- Python `str.strip()`. -/
def pyStrip (s : String) : String := String.mk (pyStripChars s.data)

/-- Python `str.lower()` (the role and location strings here are ASCII). -/
def pyLower (s : String) : String := String.mk (s.data.map Char.toLower)

/-- Embeds `_normalize_location` (policies.py lines 188-191): strip then
lowercase. The `None` guard is outside the `String` type. -/
def normalizeLocation (location : String) : String := pyLower (pyStrip location)

/-- One role's normalization inside `_normalize_roles`:
`str(role).strip().lower()`. -/
def normalizeRole (r : String) : String := pyLower (pyStrip r)

/-- The accumulation loop of `_normalize_roles` (policies.py lines 179-184):
skip `None` entries, strip-and-lowercase, drop empties, add to the set. -/
def addRoles : List (Option String) → Finset String → Finset String
  | [], acc => acc
  | none :: rest, acc => addRoles rest acc
  | some r :: rest, acc =>
      if normalizeRole r = "" then addRoles rest acc
      else addRoles rest (insert (normalizeRole r) acc)

/-- Embeds `_normalize_roles` (policies.py lines 175-185): `None` collapses
to `{"system"}`, otherwise normalize each entry and collapse an empty
result to `{"system"}` (`return roles or {"system"}`). -/
def normalizeRoles : Option (List (Option String)) → Finset String
  | none => {"system"}
  | some rs =>
      if addRoles rs ∅ = ∅ then {"system"} else addRoles rs ∅

/-- Base64 digit value of a character, with the urlsafe translation
(`-` → `+`, `_` → `/`) of `base64.urlsafe_b64decode` folded in; `none` for
characters outside the alphabet (discarded in non-strict mode). -/
def b64CharVal (c : Char) : Option Nat :=
  if 65 ≤ c.toNat && c.toNat ≤ 90 then some (c.toNat - 65)
  else if 97 ≤ c.toNat && c.toNat ≤ 122 then some (c.toNat - 97 + 26)
  else if 48 ≤ c.toNat && c.toNat ≤ 57 then some (c.toNat - 48 + 52)
  else if c = '+' || c = '-' then some 62
  else if c = '/' || c = '_' then some 63
  else none

/-- CPython `binascii.a2b_base64` in non-strict mode (the mode
`base64.b64decode` uses by default): state is (quad position, carried bits,
consecutive pads, output accumulated in reverse). Non-alphabet characters
are discarded; enough padding after two or three data characters of a quad
ends decoding; a final quad position of 1, 2 or 3 is an error. -/
def a2bBase64 : List Char → Nat → Nat → Nat → Bytes → Except String Bytes
  | [], quadPos, _, _, acc =>
      if quadPos = 0 then Except.ok acc.reverse
      else if quadPos = 1 then
        Except.error "Invalid base64-encoded string: number of data characters cannot be 1 more than a multiple of 4"
      else Except.error "Incorrect padding"
  | c :: rest, quadPos, leftchar, pads, acc =>
      if c = '=' then
        if 2 ≤ quadPos then
          if 4 ≤ quadPos + (pads + 1) then Except.ok acc.reverse
          else a2bBase64 rest quadPos leftchar (pads + 1) acc
        else a2bBase64 rest quadPos leftchar pads acc
      else
        match b64CharVal c with
        | none => a2bBase64 rest quadPos leftchar pads acc
        | some v =>
          match quadPos with
          | 0 => a2bBase64 rest 1 v 0 acc
          | 1 => a2bBase64 rest 2 (v % 16) 0 ((leftchar * 4 + v / 16) :: acc)
          | 2 => a2bBase64 rest 3 (v % 4) 0 ((leftchar * 16 + v / 4) :: acc)
          | _ => a2bBase64 rest 0 0 0 ((leftchar * 64 + v) :: acc)

/-- `base64.urlsafe_b64decode` on a `str` argument: encode to ASCII
(non-ASCII input raises, and the caller catches every exception alike),
then decode in non-strict mode. -/
def urlsafeB64decode (s : String) : Except String Bytes :=
  if s.data.all (fun c => c.toNat ≤ 127) then a2bBase64 s.data 0 0 0 []
  else Except.error "ascii codec cannot encode character"

/-- Modelled from the spec: the `cryptography.fernet.Fernet` dependency is
not part of this repository. Per the spec (token wire format and glossary),
a token is an opaque authenticated-encryption blob bound to the key that
produced it: decrypting under the producing key recovers the exact payload,
and decrypting under any other key fails authentication (`InvalidToken`).
The version marker, timestamp, random IV and HMAC tag are abstracted away;
only the key binding and the payload are kept. -/
structure FernetToken where
  key : String
  payload : Bytes
deriving DecidableEq

/-- `Fernet(key).encrypt(data)`: a token carrying `data`, bound to `key`. -/
def fernetEncrypt (key : String) (data : Bytes) : FernetToken :=
  { key := key, payload := data }

/-- `Fernet(key).decrypt(token)`: the payload when the token was produced
under `key`, `none` (`InvalidToken`) under any other key. -/
def fernetDecrypt (key : String) (tok : FernetToken) : Option Bytes :=
  if tok.key = key then some tok.payload else none

/-- Embeds `_LocationPolicy` (policies.py lines 31-58). The `fernet` field
holds the urlsafe-base64 key text that `Fernet` was constructed with. -/
structure LocationPolicy where
  name : String
  keyId : String
  fernetKey : String
  allowedRoles : Finset String
  keySource : String
deriving DecidableEq

/-- Python `sorted` on a set of strings: the list of its elements in
increasing lexicographic (code point) order, via insertion sort lifted to
the `Finset`. -/
def sortedRoles (s : Finset String) : List String :=
  Quot.liftOn s.val (List.insertionSort (fun a b : String => a ≤ b))
    (fun _ _ h =>
      List.eq_of_perm_of_sorted
        (((List.perm_insertionSort _ _).trans h).trans
          (List.perm_insertionSort _ _).symm)
        (List.sorted_insertionSort _ _) (List.sorted_insertionSort _ _))

/-- The message of `_LocationPolicy.authorize`'s `AuthorizationError`
(policies.py line 43). -/
def authFailMsg (p : LocationPolicy) : String :=
  "principal lacks roles for " ++ p.name ++ "; required one of " ++
    pyListRepr (sortedRoles p.allowedRoles)

/-- Embeds `_LocationPolicy.authorize` (policies.py lines 39-44): normalize
the principal roles and fail iff the intersection with the allowed roles is
empty (`if not roles & self.allowed_roles`). -/
def LocationPolicy.authorize (p : LocationPolicy)
    (principalRoles : Option (List (Option String))) : Except SecError Unit :=
  if normalizeRoles principalRoles ∩ p.allowedRoles = ∅ then
    Except.error (SecError.authorizationError (authFailMsg p))
  else Except.ok ()

/-- `POLICY_VERSION` (policies.py line 20). -/
def POLICY_VERSION : String := "2024.1"

/-- The flattened shape of the dictionary `_LocationPolicy.snapshot`
returns (policies.py lines 46-58). -/
structure PolicySnapshot where
  location : String
  policyVersion : String
  algorithm : String
  keyId : String
  keySource : String
  allowedRoles : List String
deriving DecidableEq

/-- Embeds `_LocationPolicy.snapshot` (policies.py lines 46-58). -/
def LocationPolicy.snapshot (p : LocationPolicy) : PolicySnapshot :=
  { location := p.name
    policyVersion := POLICY_VERSION
    algorithm := "fernet"
    keyId := p.keyId
    keySource := p.keySource
    allowedRoles := sortedRoles p.allowedRoles }

/-- One entry of the policy-definition dictionaries (`config` in
`_load_policies`): each field is `config.get(...)`, absent keys are
`none`. -/
structure PolicyDefinition where
  envKey : Option String := none
  envRoles : Option String := none
  defaultKey : Option String := none
  defaultRoles : Option (Finset String) := none
  keyId : Option String := none
deriving DecidableEq

/-- Python `str(x or "")` on an optional string: `None` and `""` are both
falsy and give `""`. -/
def strOrEmpty : Option String → String
  | none => ""
  | some s => s

/-- Python truthiness of `os.getenv(var)`: set and non-empty. -/
def envTruthy : Option String → Bool
  | none => false
  | some s => s ≠ ""

/-- `raw_key = os.getenv(env_var) or default_key` (policies.py line 144). -/
def resolveRawKey (env : EnvMap) (cfg : PolicyDefinition) : String :=
  match env (strOrEmpty cfg.envKey) with
  | some v => if v = "" then strOrEmpty cfg.defaultKey else v
  | none => strOrEmpty cfg.defaultKey

/-- `key_source = f"env:{env_var}" if os.getenv(env_var) else "default"`
(policies.py line 145). -/
def resolveKeySource (env : EnvMap) (cfg : PolicyDefinition) : String :=
  if envTruthy (env (strOrEmpty cfg.envKey)) then
    "env:" ++ strOrEmpty cfg.envKey
  else "default"

/-- The messages of `_coerce_fernet_key`'s three `ValueError`s
(policies.py lines 164, 169, 171); each names the offending location. -/
def missingKeyMsg (location : String) : String :=
  "missing encryption key for location " ++ quoted location

/-- Message of the base64-decode-failure `ValueError` (policies.py 169). -/
def invalidKeyMsg (location : String) : String :=
  "invalid base64 key for location " ++ quoted location

/-- Message of the wrong-decoded-length `ValueError` (policies.py 171). -/
def keyLengthMsg (location : String) : String :=
  "incorrect key length for location " ++ quoted location

/-- Embeds `_coerce_fernet_key` (policies.py lines 162-172): reject an
empty key, strip, urlsafe-base64-decode (any failure is caught and
re-raised as a `ValueError` naming the location), require exactly 32
decoded bytes, and return the stripped key text (`raw_key.encode()`). -/
def coerceFernetKey (rawKey : String) (location : String) : Except SecError String :=
  if rawKey = "" then Except.error (SecError.valueError (missingKeyMsg location))
  else
    match urlsafeB64decode (pyStrip rawKey) with
    | Except.error _ => Except.error (SecError.valueError (invalidKeyMsg location))
    | Except.ok decoded =>
        if decoded.length ≠ 32 then
          Except.error (SecError.valueError (keyLengthMsg location))
        else Except.ok (pyStrip rawKey)

/-- Python `str.split(",")` on a character list: splitting on every comma,
keeping empty pieces (`"".split(",") == [""]`). -/
def splitCommaChars : List Char → List (List Char)
  | [] => [[]]
  | c :: rest =>
      if c = ',' then [] :: splitCommaChars rest
      else
        match splitCommaChars rest with
        | [] => [[c]]
        | h :: t => (c :: h) :: t

/-- Python `str.split(",")`. -/
def pySplitComma (s : String) : List String :=
  (splitCommaChars s.data).map String.mk

/-- The argument `_load_policies` passes to `_normalize_roles` for the role
override (policies.py line 150):
`os.getenv(roles_env_var, "").split(",") if roles_env_var else None`. -/
def envRoleInput (env : EnvMap) (cfg : PolicyDefinition) :
    Option (List (Option String)) :=
  if strOrEmpty cfg.envRoles = "" then none
  else some ((pySplitComma ((env (strOrEmpty cfg.envRoles)).getD "")).map some)

/-- `key_id = str(config.get("key_id") or f"{key}-default")`
(policies.py line 152), where `key` is the normalized location. -/
def resolveKeyId (location : String) (cfg : PolicyDefinition) : String :=
  match cfg.keyId with
  | none => normalizeLocation location ++ "-default"
  | some k => if k = "" then normalizeLocation location ++ "-default" else k

/-- `allowed_roles = base_roles | env_roles | {"system"}`
(policies.py lines 148-151). -/
def resolveAllowedRoles (env : EnvMap) (cfg : PolicyDefinition) : Finset String :=
  cfg.defaultRoles.getD ∅ ∪ normalizeRoles (envRoleInput env cfg) ∪ {"system"}

/-- One iteration of `_load_policies`' loop (policies.py lines 140-159):
resolve and validate the key, compute the allowed roles, and build the
`_LocationPolicy` stored under the normalized location name. -/
def loadPolicy (env : EnvMap) (location : String) (config : PolicyDefinition) :
    Except SecError LocationPolicy :=
  match coerceFernetKey (resolveRawKey env config) location with
  | Except.error e => Except.error e
  | Except.ok fernetKey =>
      Except.ok
        { name := normalizeLocation location
          keyId := resolveKeyId location config
          fernetKey := fernetKey
          allowedRoles := resolveAllowedRoles env config
          keySource := resolveKeySource env config }

/-- `_DEFAULT_POLICY_DEFINITIONS` (policies.py lines 61-83), in the
dictionary's insertion order. -/
def defaultPolicyDefinitions : List (String × PolicyDefinition) :=
  [ ("s3",
     { envKey := some "S3_ENCRYPTION_KEY"
       envRoles := some "S3_ALLOWED_ROLES"
       defaultKey := some "L49jTE3mqXUgmwOvV2EaXiiZkJtQXoaKKKzlqxMFhkI="
       defaultRoles := some {"analytics", "engineering", "system"}
       keyId := some "s3-default" }),
    ("azure",
     { envKey := some "AZURE_ENCRYPTION_KEY"
       envRoles := some "AZURE_ALLOWED_ROLES"
       defaultKey := some "0-BIKqiBt__oUvQx41iC89SdJpAis6ruT5mHWZn5d50="
       defaultRoles := some {"operations", "engineering", "system"}
       keyId := some "azure-default" }),
    ("gcs",
     { envKey := some "GCS_ENCRYPTION_KEY"
       envRoles := some "GCS_ALLOWED_ROLES"
       defaultKey := some "FNLdlBuOKy23fIzUTBSHXjhJsfIgSkikUSU3mWk50oo="
       defaultRoles := some {"compliance", "analytics", "system"}
       keyId := some "gcs-default" }) ]

/-- The whole loop of `_load_policies` (policies.py lines 139-159): the
first definition whose key fails validation aborts construction; otherwise
every policy is stored under its normalized location name, in order. -/
def loadPolicies (env : EnvMap) :
    List (String × PolicyDefinition) → Except SecError (List (String × LocationPolicy))
  | [] => Except.ok []
  | (loc, cfg) :: rest =>
      match loadPolicy env loc cfg with
      | Except.error e => Except.error e
      | Except.ok p =>
          match loadPolicies env rest with
          | Except.error e => Except.error e
          | Except.ok ps => Except.ok ((normalizeLocation loc, p) :: ps)

/-- Lookup in `self._policies` with Python dict semantics: repeated
assignment to the same normalized key keeps the last value, so the lookup
prefers entries later in the construction order. -/
def storeLookup : List (String × LocationPolicy) → String → Option LocationPolicy
  | [], _ => none
  | (n, p) :: rest, k =>
      match storeLookup rest k with
      | some q => some q
      | none => if n = k then some p else none

/-- Embeds `AdaptiveSecurityManager`'s state: the `_policies` dictionary
(the `_definitions` input is consumed at construction). -/
structure AdaptiveSecurityManager where
  policies : List (String × LocationPolicy)
deriving DecidableEq

/-- The definitions list `__init__` actually iterates (policies.py line
90): `definitions or dict(_DEFAULT_POLICY_DEFINITIONS)` — an absent or
empty (falsy) argument falls back to the defaults. -/
def effectiveDefinitions
    (definitions : Option (List (String × PolicyDefinition))) :
    List (String × PolicyDefinition) :=
  match definitions with
  | none => defaultPolicyDefinitions
  | some [] => defaultPolicyDefinitions
  | some ds => ds

/-- Embeds `AdaptiveSecurityManager.__init__` (policies.py lines 89-92):
an absent or empty (falsy) `definitions` argument falls back to
`_DEFAULT_POLICY_DEFINITIONS`; `_load_policies` runs to completion or the
constructor raises and no manager exists. -/
def buildManager (env : EnvMap)
    (definitions : Option (List (String × PolicyDefinition))) :
    Except SecError AdaptiveSecurityManager :=
  match loadPolicies env (effectiveDefinitions definitions) with
  | Except.error e => Except.error e
  | Except.ok ps => Except.ok { policies := ps }

/-- The message of `_policy_for`'s `ValueError` (policies.py line 136),
naming the location as passed by the caller. -/
def noPolicyMsg (location : String) : String :=
  "no security policy configured for location " ++ quoted location

/-- Embeds `AdaptiveSecurityManager._policy_for` (policies.py lines
133-137): normalize the name, then look it up. -/
def AdaptiveSecurityManager.policyFor (m : AdaptiveSecurityManager)
    (location : String) : Except SecError LocationPolicy :=
  match storeLookup m.policies (normalizeLocation location) with
  | none => Except.error (SecError.valueError (noPolicyMsg location))
  | some p => Except.ok p

/-- Embeds `AdaptiveSecurityManager.encrypt` (policies.py lines 96-106):
absent data passes through untouched; otherwise resolve the policy,
authorize, and produce a Fernet token under the location's key. -/
def AdaptiveSecurityManager.encrypt (m : AdaptiveSecurityManager)
    (location : String) (data : Option Bytes)
    (principalRoles : Option (List (Option String))) :
    Except SecError (Option FernetToken) :=
  match data with
  | none => Except.ok none
  | some d =>
      match m.policyFor location with
      | Except.error e => Except.error e
      | Except.ok policy =>
          match policy.authorize principalRoles with
          | Except.error e => Except.error e
          | Except.ok _ => Except.ok (some (fernetEncrypt policy.fernetKey d))

/-- Embeds `AdaptiveSecurityManager.decrypt` (policies.py lines 108-121):
absent data passes through untouched; otherwise resolve the policy,
authorize, and decrypt, turning `InvalidToken` into an `EncryptionError`
naming the policy. -/
def AdaptiveSecurityManager.decrypt (m : AdaptiveSecurityManager)
    (location : String) (data : Option FernetToken)
    (principalRoles : Option (List (Option String))) :
    Except SecError (Option Bytes) :=
  match data with
  | none => Except.ok none
  | some tok =>
      match m.policyFor location with
      | Except.error e => Except.error e
      | Except.ok policy =>
          match policy.authorize principalRoles with
          | Except.error e => Except.error e
          | Except.ok _ =>
              match fernetDecrypt policy.fernetKey tok with
              | some pt => Except.ok (some pt)
              | none =>
                  Except.error (SecError.encryptionError
                    ("failed to decrypt payload from " ++ policy.name))

/-- Embeds `AdaptiveSecurityManager.describe_policy` (policies.py lines
123-125). -/
def AdaptiveSecurityManager.describePolicy (m : AdaptiveSecurityManager)
    (location : String) : Except SecError PolicySnapshot :=
  match m.policyFor location with
  | Except.error e => Except.error e
  | Except.ok p => Except.ok p.snapshot

/-- Embeds `AdaptiveSecurityManager.allowed_roles` (policies.py lines
127-129). -/
def AdaptiveSecurityManager.allowedRoles (m : AdaptiveSecurityManager)
    (location : String) : Except SecError (List String) :=
  match m.policyFor location with
  | Except.error e => Except.error e
  | Except.ok p => Except.ok (sortedRoles p.allowedRoles)

/-- The module-level `security_manager = AdaptiveSecurityManager()`
(policies.py line 194), as a function of the process environment. -/
def securityManager (env : EnvMap) : Except SecError AdaptiveSecurityManager :=
  buildManager env none

deriving instance DecidableEq for Except

/-- Two policy definitions that agree on everything except their default
key material. -/
def sameDefinitionExceptKey (a b : String × PolicyDefinition) : Prop :=
  a.1 = b.1 ∧ a.2.envKey = b.2.envKey ∧ a.2.envRoles = b.2.envRoles ∧
    a.2.defaultRoles = b.2.defaultRoles ∧ a.2.keyId = b.2.keyId

/-- Two location policies that agree on every snapshot-visible field,
leaving only the Fernet key free. -/
def samePolicyExceptKey (p q : LocationPolicy) : Prop :=
  p.name = q.name ∧ p.keyId = q.keyId ∧ p.keySource = q.keySource ∧
    p.allowedRoles = q.allowedRoles

/-- A small concrete policy for witnesses. -/
def wPolicy : LocationPolicy :=
  { name := "s3", keyId := "s3-default", fernetKey := "wkeyA"
    allowedRoles := {"system"}, keySource := "default" }

/-- A second concrete policy, under a different key, for witnesses. -/
def wPolicyB : LocationPolicy :=
  { name := "azure", keyId := "azure-default", fernetKey := "wkeyB"
    allowedRoles := {"system"}, keySource := "default" }

/-- A one-location manager for witnesses. -/
def wManager : AdaptiveSecurityManager := { policies := [("s3", wPolicy)] }

/-- A two-location manager with distinct keys, for witnesses. -/
def wManager2 : AdaptiveSecurityManager :=
  { policies := [("s3", wPolicy), ("azure", wPolicyB)] }

/-- An environment that overrides the s3 and azure keys with the same
(valid) key material, as the configuration interface permits. -/
def sharedEnv : EnvMap := fun v =>
  if v = "S3_ENCRYPTION_KEY" then
    some "FNLdlBuOKy23fIzUTBSHXjhJsfIgSkikUSU3mWk50oo="
  else if v = "AZURE_ENCRYPTION_KEY" then
    some "FNLdlBuOKy23fIzUTBSHXjhJsfIgSkikUSU3mWk50oo="
  else none

/-- One-location definition list under the first default key. -/
def wDefsA : List (String × PolicyDefinition) :=
  [("w", { defaultKey := some "L49jTE3mqXUgmwOvV2EaXiiZkJtQXoaKKKzlqxMFhkI=" })]

/-- The same definition list with only the key material changed. -/
def wDefsB : List (String × PolicyDefinition) :=
  [("w", { defaultKey := some "0-BIKqiBt__oUvQx41iC89SdJpAis6ruT5mHWZn5d50=" })]

/-- The policy `wDefsA` builds (no environment overrides). -/
def wPolicyW : LocationPolicy :=
  { name := "w", keyId := "w-default"
    fernetKey := "L49jTE3mqXUgmwOvV2EaXiiZkJtQXoaKKKzlqxMFhkI="
    allowedRoles := {"system"}, keySource := "default" }

/-- The policy `wDefsB` builds: only the key differs from `wPolicyW`. -/
def wPolicyW2 : LocationPolicy :=
  { name := "w", keyId := "w-default"
    fernetKey := "0-BIKqiBt__oUvQx41iC89SdJpAis6ruT5mHWZn5d50="
    allowedRoles := {"system"}, keySource := "default" }

/-- The manager `wDefsA` builds (no environment overrides). -/
def wMgrA : AdaptiveSecurityManager := { policies := [("w", wPolicyW)] }

/-- The manager `wDefsB` builds (no environment overrides). -/
def wMgrB : AdaptiveSecurityManager := { policies := [("w", wPolicyW2)] }

/-- A definition whose default key is valid base64 of the wrong length. -/
def badCfg : PolicyDefinition := { defaultKey := some "abcd" }

/-- A definition list containing `badCfg`. -/
def badDefs : List (String × PolicyDefinition) := [("bad", badCfg)]

/-- The environment with no variables set. -/
def emptyEnv : EnvMap := fun _ => none

/-! ## Helper lemmas -/

theorem authorize_ok_iff (p : LocationPolicy)
    (roles : Option (List (Option String))) :
    p.authorize roles = Except.ok () ↔
      (normalizeRoles roles ∩ p.allowedRoles).Nonempty := by
  by_cases h : normalizeRoles roles ∩ p.allowedRoles = ∅
  · simp [LocationPolicy.authorize, h, Finset.not_nonempty_iff_eq_empty]
  · simp [LocationPolicy.authorize, h, Finset.nonempty_iff_ne_empty]

theorem mem_sortedRoles (s : Finset String) (x : String) :
    x ∈ sortedRoles s ↔ x ∈ s := by
  rcases s with ⟨m, hm⟩
  induction m using Quotient.inductionOn with
  | h l =>
    show x ∈ List.insertionSort _ l ↔ _
    rw [(List.perm_insertionSort _ l).mem_iff]
    simp [Finset.mem_mk]

/-! ## Claim theorems -/

/-- C2: for every policy and every (possibly absent) principal-role input,
`authorize` succeeds iff the normalized role set intersects the policy's
allowed roles; on failure it raises an `AuthorizationError` whose message
names the location and the full sorted list of required roles (the message
is a pure function of the policy, hence deterministic). -/
theorem authorize_gate_spec (p : LocationPolicy)
    (roles : Option (List (Option String))) :
    (p.authorize roles = Except.ok () ↔
      (normalizeRoles roles ∩ p.allowedRoles).Nonempty) ∧
    (¬ (normalizeRoles roles ∩ p.allowedRoles).Nonempty →
      p.authorize roles = Except.error (SecError.authorizationError
        ("principal lacks roles for " ++ p.name ++ "; required one of " ++
          pyListRepr (sortedRoles p.allowedRoles)))) := by
  refine ⟨authorize_ok_iff p roles, fun h => ?_⟩
  rw [Finset.not_nonempty_iff_eq_empty] at h
  simp [LocationPolicy.authorize, h, authFailMsg]

/-- C5: for every location string and every role input, `encrypt` and
`decrypt` on absent data return absent immediately — for every manager and
every location string, configured or not, so neither the policy lookup nor
the authorization check can be reached. -/
theorem absent_data_passthrough (m : AdaptiveSecurityManager)
    (location : String) (roles : Option (List (Option String))) :
    m.encrypt location none roles = Except.ok none ∧
    m.decrypt location none roles = Except.ok none :=
  ⟨rfl, rfl⟩

/-- C10 (implicit): when the data argument is absent, `encrypt` and
`decrypt` return absent before any policy resolution: even at a location
with no configured policy (where `_policy_for` would raise), no lookup
error is raised. -/
theorem absent_data_skips_lookup (m : AdaptiveSecurityManager) (s : String)
    (roles : Option (List (Option String))) (e : SecError)
    (h : m.policyFor s = Except.error e) :
    m.encrypt s none roles = Except.ok none ∧
    m.decrypt s none roles = Except.ok none :=
  ⟨rfl, rfl⟩

/-- Witness for C10 at a concrete store and an unconfigured location. -/
theorem absent_data_skips_lookup_witness :
    wManager.policyFor "nope" =
      Except.error (SecError.valueError (noPolicyMsg "nope")) ∧
    wManager.encrypt "nope" none none = Except.ok none ∧
    wManager.decrypt "nope" none none = Except.ok none :=
  ⟨by decide, absent_data_skips_lookup wManager "nope" none
    (SecError.valueError (noPolicyMsg "nope")) (by decide)⟩

/-- C7: every policy lookup (shared by encrypt, decrypt, describePolicy and
allowedRoles) keys on the normalized (stripped, lowercased) location name,
and fails with the "no security policy configured for location" error
exactly when the normalized name is absent from the store. -/
theorem policy_lookup_normalized (m : AdaptiveSecurityManager) (s : String) :
    (∀ p, m.policyFor s = Except.ok p ↔
        storeLookup m.policies (normalizeLocation s) = some p) ∧
    (m.policyFor s = Except.error (SecError.valueError (noPolicyMsg s)) ↔
        storeLookup m.policies (normalizeLocation s) = none) ∧
    (∀ t, normalizeLocation t = normalizeLocation s →
        ∀ p, (m.policyFor t = Except.ok p ↔ m.policyFor s = Except.ok p)) ∧
    (storeLookup m.policies (normalizeLocation s) = none →
        m.describePolicy s = Except.error (SecError.valueError (noPolicyMsg s)) ∧
        m.allowedRoles s = Except.error (SecError.valueError (noPolicyMsg s)) ∧
        (∀ d roles, m.encrypt s (some d) roles =
            Except.error (SecError.valueError (noPolicyMsg s))) ∧
        (∀ tok roles, m.decrypt s (some tok) roles =
            Except.error (SecError.valueError (noPolicyMsg s)))) := by
  cases h : storeLookup m.policies (normalizeLocation s) with
  | none =>
      refine ⟨?_, ?_, ?_, ?_⟩
      · intro p
        simp [AdaptiveSecurityManager.policyFor, h]
      · simp [AdaptiveSecurityManager.policyFor, h]
      · intro t ht p
        simp [AdaptiveSecurityManager.policyFor, ht, h]
      · intro _
        refine ⟨?_, ?_, ?_, ?_⟩
        · simp [AdaptiveSecurityManager.describePolicy,
            AdaptiveSecurityManager.policyFor, h]
        · simp [AdaptiveSecurityManager.allowedRoles,
            AdaptiveSecurityManager.policyFor, h]
        · intro d roles
          simp [AdaptiveSecurityManager.encrypt,
            AdaptiveSecurityManager.policyFor, h]
        · intro tok roles
          simp [AdaptiveSecurityManager.decrypt,
            AdaptiveSecurityManager.policyFor, h]
  | some q =>
      refine ⟨?_, ?_, ?_, ?_⟩
      · intro p
        simp [AdaptiveSecurityManager.policyFor, h]
      · simp [AdaptiveSecurityManager.policyFor, h]
      · intro t ht p
        simp [AdaptiveSecurityManager.policyFor, ht, h]
      · intro hnone
        cases hnone

theorem mem_addRoles (rs : List (Option String)) (acc : Finset String)
    (x : String) :
    x ∈ addRoles rs acc ↔
      x ∈ acc ∨ (x ≠ "" ∧ ∃ r : String, some r ∈ rs ∧ normalizeRole r = x) := by
  induction rs generalizing acc with
  | nil => simp [addRoles]
  | cons hd tl ih =>
      cases hd with
      | none =>
          rw [addRoles, ih]
          simp
      | some r0 =>
          by_cases h : normalizeRole r0 = ""
          · rw [addRoles, if_pos h, ih]
            constructor
            · rintro (hx | ⟨hne, r, hr, hnr⟩)
              · exact Or.inl hx
              · exact Or.inr ⟨hne, r, List.mem_cons_of_mem _ hr, hnr⟩
            · rintro (hx | ⟨hne, r, hr, hnr⟩)
              · exact Or.inl hx
              · rcases List.mem_cons.1 hr with heq | hr'
                · rw [Option.some_inj.1 heq, h] at hnr
                  exact absurd hnr.symm hne
                · exact Or.inr ⟨hne, r, hr', hnr⟩
          · rw [addRoles, if_neg h, ih]
            constructor
            · rintro (hx | ⟨hne, r, hr, hnr⟩)
              · rcases Finset.mem_insert.1 hx with heq | hacc
                · exact Or.inr ⟨heq ▸ h, r0, List.mem_cons_self _ _, heq.symm⟩
                · exact Or.inl hacc
              · exact Or.inr ⟨hne, r, List.mem_cons_of_mem _ hr, hnr⟩
            · rintro (hx | ⟨hne, r, hr, hnr⟩)
              · exact Or.inl (Finset.mem_insert_of_mem hx)
              · rcases List.mem_cons.1 hr with heq | hr'
                · exact Or.inl (Finset.mem_insert.2 (Or.inl (by rw [Option.some_inj.1 heq] at hnr; exact hnr.symm)))
                · exact Or.inr ⟨hne, r, hr', hnr⟩

theorem addRoles_empty_iff (rs : List (Option String)) :
    addRoles rs ∅ = ∅ ↔ ∀ r : String, some r ∈ rs → normalizeRole r = "" := by
  constructor
  · intro h r hr
    by_contra hne
    have hx : normalizeRole r ∈ addRoles rs ∅ :=
      (mem_addRoles rs ∅ _).2 (Or.inr ⟨hne, r, hr, rfl⟩)
    rw [h] at hx
    exact absurd hx (Finset.not_mem_empty _)
  · intro h
    rw [Finset.eq_empty_iff_forall_not_mem]
    intro x hx
    rcases (mem_addRoles rs ∅ x).1 hx with hc | ⟨hne, r, hr, hnr⟩
    · exact absurd hc (Finset.not_mem_empty _)
    · exact hne (hnr ▸ h r hr)

theorem mem_normalizeRoles_some (rs : List (Option String)) (x : String) :
    x ∈ normalizeRoles (some rs) ↔
      ((x ≠ "" ∧ ∃ r : String, some r ∈ rs ∧ normalizeRole r = x) ∨
       (x = "system" ∧ ∀ r : String, some r ∈ rs → normalizeRole r = "")) := by
  rw [normalizeRoles]
  by_cases h : addRoles rs ∅ = ∅
  · rw [if_pos h]
    have hall := (addRoles_empty_iff rs).1 h
    constructor
    · intro hx
      exact Or.inr ⟨Finset.mem_singleton.1 hx, hall⟩
    · rintro (⟨hne, r, hr, hnr⟩ | ⟨hx, _⟩)
      · exact absurd (hnr ▸ hall r hr) hne
      · exact Finset.mem_singleton.2 hx
  · rw [if_neg h]
    have := mem_addRoles rs ∅ x
    constructor
    · intro hx
      rcases (mem_addRoles rs ∅ x).1 hx with hc | hgood
      · exact absurd hc (Finset.not_mem_empty _)
      · exact Or.inl hgood
    · rintro (hgood | ⟨_, hall⟩)
      · exact (mem_addRoles rs ∅ x).2 (Or.inr hgood)
      · exact absurd ((addRoles_empty_iff rs).2 hall) h

theorem loadPolicy_ok_elim {env : EnvMap} {loc : String}
    {cfg : PolicyDefinition} {p : LocationPolicy}
    (h : loadPolicy env loc cfg = Except.ok p) :
    p.name = normalizeLocation loc ∧ p.keyId = resolveKeyId loc cfg ∧
    p.allowedRoles = resolveAllowedRoles env cfg ∧
    p.keySource = resolveKeySource env cfg ∧
    coerceFernetKey (resolveRawKey env cfg) loc = Except.ok p.fernetKey := by
  rw [loadPolicy] at h
  cases hc : coerceFernetKey (resolveRawKey env cfg) loc with
  | error e => rw [hc] at h; cases h
  | ok k =>
      rw [hc] at h
      injection h with h
      subst h
      exact ⟨rfl, rfl, rfl, rfl, rfl⟩

/-- C8: role normalization lowercases and trims each role and discards
empties; it yields exactly `{"system"}` when the input is absent and when
it is empty after normalization; consequently a caller presenting an
explicitly empty role set is authorized against every constructed
policy. -/
theorem role_normalization_spec :
    normalizeRoles none = {"system"} ∧
    (∀ rs : List (Option String),
        (∀ r : String, some r ∈ rs → normalizeRole r = "") →
        normalizeRoles (some rs) = {"system"}) ∧
    (∀ (rs : List (Option String)) (x : String),
        x ∈ normalizeRoles (some rs) ↔
          ((x ≠ "" ∧ ∃ r : String, some r ∈ rs ∧ normalizeRole r = x) ∨
           (x = "system" ∧ ∀ r : String, some r ∈ rs → normalizeRole r = ""))) ∧
    (∀ (env : EnvMap) (loc : String) (cfg : PolicyDefinition)
        (p : LocationPolicy), loadPolicy env loc cfg = Except.ok p →
        p.authorize (some []) = Except.ok ()) := by
  refine ⟨rfl, ?_, mem_normalizeRoles_some, ?_⟩
  · intro rs h
    rw [normalizeRoles, if_pos ((addRoles_empty_iff rs).2 h)]
  · intro env loc cfg p h
    obtain ⟨_, _, hroles, _, _⟩ := loadPolicy_ok_elim h
    rw [authorize_ok_iff]
    refine ⟨"system", Finset.mem_inter.2 ⟨?_, ?_⟩⟩
    · show "system" ∈ normalizeRoles (some [])
      decide
    · rw [hroles, resolveAllowedRoles]
      exact Finset.mem_union_right _ (Finset.mem_singleton_self _)

/-- C1: for every configured location (a location whose lookup yields a
policy), every byte payload (including the empty one) and every role input
whose normalization intersects the policy's allowed roles,
`decrypt(L, encrypt(L, data, roles), roles)` returns exactly `data`. -/
theorem encrypt_decrypt_roundtrip (m : AdaptiveSecurityManager)
    (loc : String) (data : Bytes) (roles : Option (List (Option String)))
    (p : LocationPolicy) (hp : m.policyFor loc = Except.ok p)
    (hr : (normalizeRoles roles ∩ p.allowedRoles).Nonempty) :
    ∃ tok, m.encrypt loc (some data) roles = Except.ok (some tok) ∧
      m.decrypt loc (some tok) roles = Except.ok (some data) := by
  have hauth : p.authorize roles = Except.ok () := (authorize_ok_iff p roles).2 hr
  refine ⟨fernetEncrypt p.fernetKey data, ?_, ?_⟩
  · simp only [AdaptiveSecurityManager.encrypt, hp, hauth]
  · simp only [AdaptiveSecurityManager.decrypt, hp, hauth]
    simp [fernetDecrypt, fernetEncrypt]

/-- Witness for C1 at a concrete store, payload and role set. -/
theorem encrypt_decrypt_roundtrip_witness :
    wManager.policyFor "s3" = Except.ok wPolicy ∧
    (normalizeRoles none ∩ wPolicy.allowedRoles).Nonempty ∧
    ∃ tok, wManager.encrypt "s3" (some [104, 105]) none = Except.ok (some tok) ∧
      wManager.decrypt "s3" (some tok) none = Except.ok (some [104, 105]) :=
  ⟨by decide, by decide,
    encrypt_decrypt_roundtrip wManager "s3" [104, 105] none wPolicy
      (by decide) (by decide)⟩

/-- C3 as frozen is false: two distinct configured locations can resolve
the same key material (here the default store with the s3 and azure key
environment overrides set to the same valid key), and then a token
produced at `s3` decrypts successfully at `azure`, returning the
plaintext instead of failing with an `EncryptionError`. -/
theorem cross_location_claim_counterexample :
    normalizeLocation "s3" ≠ normalizeLocation "azure" ∧
    (buildManager sharedEnv none).bind (fun m =>
        (m.encrypt "s3" (some [104, 105]) none).bind (fun tok =>
          m.decrypt "azure" tok none)) = Except.ok (some [104, 105]) :=
  ⟨by decide, by decide⟩

/-- C3 amended: decrypting at L2 a token produced at L1 fails with an
`EncryptionError` naming L2 (and returns no plaintext) whenever the two
locations' resolved key material differs — which holds for every pair of
distinct locations of the default configuration. -/
theorem cross_location_reject (m : AdaptiveSecurityManager)
    (loc1 loc2 : String) (p1 p2 : LocationPolicy) (data : Bytes)
    (roles : Option (List (Option String))) (tok : FernetToken)
    (h1 : m.policyFor loc1 = Except.ok p1)
    (h2 : m.policyFor loc2 = Except.ok p2)
    (hkey : p1.fernetKey ≠ p2.fernetKey)
    (henc : m.encrypt loc1 (some data) roles = Except.ok (some tok))
    (hauth2 : (normalizeRoles roles ∩ p2.allowedRoles).Nonempty) :
    m.decrypt loc2 (some tok) roles = Except.error (SecError.encryptionError
      ("failed to decrypt payload from " ++ p2.name)) := by
  have htok : tok = fernetEncrypt p1.fernetKey data := by
    simp only [AdaptiveSecurityManager.encrypt, h1] at henc
    cases ha : p1.authorize roles with
    | error e =>
        rw [ha] at henc
        simp at henc
    | ok u =>
        cases u
        rw [ha] at henc
        simp at henc
        exact henc.symm
  have hauth : p2.authorize roles = Except.ok () :=
    (authorize_ok_iff p2 roles).2 hauth2
  subst htok
  simp only [AdaptiveSecurityManager.decrypt, h2, hauth]
  simp [fernetDecrypt, fernetEncrypt, hkey]

/-- Witness for the amended C3 at two concrete locations with distinct
keys. -/
theorem cross_location_reject_witness :
    wManager2.policyFor "s3" = Except.ok wPolicy ∧
    wManager2.policyFor "azure" = Except.ok wPolicyB ∧
    wPolicy.fernetKey ≠ wPolicyB.fernetKey ∧
    wManager2.encrypt "s3" (some [1, 2]) none =
      Except.ok (some (fernetEncrypt "wkeyA" [1, 2])) ∧
    (normalizeRoles none ∩ wPolicyB.allowedRoles).Nonempty ∧
    wManager2.decrypt "azure" (some (fernetEncrypt "wkeyA" [1, 2])) none =
      Except.error (SecError.encryptionError
        ("failed to decrypt payload from " ++ wPolicyB.name)) :=
  ⟨by decide, by decide, by decide, by decide, by decide,
    cross_location_reject wManager2 "s3" "azure" wPolicy wPolicyB [1, 2] none
      (fernetEncrypt "wkeyA" [1, 2]) (by decide) (by decide) (by decide)
      (by decide) (by decide)⟩

theorem loadPolicies_error_of_mem {env : EnvMap}
    {defs : List (String × PolicyDefinition)} {loc : String}
    {cfg : PolicyDefinition} {e : SecError}
    (hmem : (loc, cfg) ∈ defs)
    (hfail : loadPolicy env loc cfg = Except.error e) :
    ∃ e2, loadPolicies env defs = Except.error e2 := by
  induction defs with
  | nil => cases hmem
  | cons hd tl ih =>
      obtain ⟨l0, c0⟩ := hd
      rcases List.mem_cons.1 hmem with heq | htl
      · injection heq with hl hc
        subst hl
        subst hc
        exact ⟨e, by simp [loadPolicies, hfail]⟩
      · cases h1 : loadPolicy env l0 c0 with
        | error e1 => exact ⟨e1, by simp [loadPolicies, h1]⟩
        | ok p0 =>
            obtain ⟨e2, h2⟩ := ih htl
            exact ⟨e2, by simp [loadPolicies, h1, h2]⟩

/-- C4: a definition whose resolved key material is empty, fails to
base64-decode, or decodes to a length other than 32 bytes makes that
definition's policy load raise a `ValueError` whose message names the
offending location, and makes the whole store construction fail: no
manager is produced. -/
theorem boot_time_key_failure (env : EnvMap)
    (defs : List (String × PolicyDefinition)) (loc : String)
    (cfg : PolicyDefinition) (hmem : (loc, cfg) ∈ defs)
    (hbad : resolveRawKey env cfg = "" ∨
        (∃ msg, urlsafeB64decode (pyStrip (resolveRawKey env cfg)) =
            Except.error msg) ∨
        (∃ bs, urlsafeB64decode (pyStrip (resolveRawKey env cfg)) =
            Except.ok bs ∧ bs.length ≠ 32)) :
    (∃ emsg, loadPolicy env loc cfg =
        Except.error (SecError.valueError emsg) ∧
        (emsg = missingKeyMsg loc ∨ emsg = invalidKeyMsg loc ∨
          emsg = keyLengthMsg loc)) ∧
    ∃ e, buildManager env (some defs) = Except.error e := by
  have hco : ∃ emsg, coerceFernetKey (resolveRawKey env cfg) loc =
      Except.error (SecError.valueError emsg) ∧
      (emsg = missingKeyMsg loc ∨ emsg = invalidKeyMsg loc ∨
        emsg = keyLengthMsg loc) := by
    by_cases h0 : resolveRawKey env cfg = ""
    · refine ⟨missingKeyMsg loc, ?_, Or.inl rfl⟩
      simp [coerceFernetKey, h0]
    · cases hdec : urlsafeB64decode (pyStrip (resolveRawKey env cfg)) with
      | error msg =>
          refine ⟨invalidKeyMsg loc, ?_, Or.inr (Or.inl rfl)⟩
          simp [coerceFernetKey, h0, hdec]
      | ok bs =>
          have hlen : bs.length ≠ 32 := by
            rcases hbad with hb | ⟨msg, hm⟩ | ⟨bs2, hb1, hb2⟩
            · exact absurd hb h0
            · rw [hdec] at hm
              cases hm
            · rw [hdec] at hb1
              injection hb1 with hb1
              subst hb1
              exact hb2
          refine ⟨keyLengthMsg loc, ?_, Or.inr (Or.inr rfl)⟩
          simp [coerceFernetKey, h0, hdec, hlen]
  obtain ⟨emsg, hce, hwhich⟩ := hco
  have hlp : loadPolicy env loc cfg =
      Except.error (SecError.valueError emsg) := by
    simp [loadPolicy, hce]
  refine ⟨⟨emsg, hlp, hwhich⟩, ?_⟩
  obtain ⟨e2, h2⟩ := loadPolicies_error_of_mem hmem hlp
  refine ⟨e2, ?_⟩
  have heff : effectiveDefinitions (some defs) = defs := by
    cases defs with
    | nil => cases hmem
    | cons a b => rfl
  simp [buildManager, heff, h2]

/-- Witness for C4: a key that decodes to 3 bytes fails construction. -/
theorem boot_time_key_failure_witness :
    ("bad", badCfg) ∈ badDefs ∧
    urlsafeB64decode (pyStrip (resolveRawKey emptyEnv badCfg)) =
      Except.ok [105, 183, 29] ∧
    ((∃ emsg, loadPolicy emptyEnv "bad" badCfg =
        Except.error (SecError.valueError emsg) ∧
        (emsg = missingKeyMsg "bad" ∨ emsg = invalidKeyMsg "bad" ∨
          emsg = keyLengthMsg "bad")) ∧
      ∃ e, buildManager emptyEnv (some badDefs) = Except.error e) :=
  ⟨List.mem_cons_self _ _, by decide,
    boot_time_key_failure emptyEnv badDefs "bad" badCfg
      (List.mem_cons_self _ _)
      (Or.inr (Or.inr ⟨[105, 183, 29], by decide, by decide⟩))⟩

theorem storeLookup_loadPolicies {env : EnvMap}
    {defs : List (String × PolicyDefinition)}
    {ps : List (String × LocationPolicy)} {k : String} {p : LocationPolicy}
    (hload : loadPolicies env defs = Except.ok ps)
    (hfind : storeLookup ps k = some p) :
    ∃ loc cfg, (loc, cfg) ∈ defs ∧ normalizeLocation loc = k ∧
      loadPolicy env loc cfg = Except.ok p := by
  induction defs generalizing ps with
  | nil =>
      simp only [loadPolicies] at hload
      injection hload with hload
      subst hload
      cases hfind
  | cons hd tl ih =>
      obtain ⟨l0, c0⟩ := hd
      simp only [loadPolicies] at hload
      cases h1 : loadPolicy env l0 c0 with
      | error e => simp [h1] at hload
      | ok p0 =>
          simp only [h1] at hload
          cases h2 : loadPolicies env tl with
          | error e => simp [h2] at hload
          | ok ps2 =>
              simp only [h2] at hload
              injection hload with hload
              subst hload
              simp only [storeLookup] at hfind
              cases h3 : storeLookup ps2 k with
              | some q =>
                  simp only [h3] at hfind
                  injection hfind with hfind
                  subst hfind
                  obtain ⟨loc, cfg, hmem, hnorm, hlp⟩ := ih h2 h3
                  exact ⟨loc, cfg, List.mem_cons_of_mem _ hmem, hnorm, hlp⟩
              | none =>
                  simp only [h3] at hfind
                  by_cases h4 : normalizeLocation l0 = k
                  · rw [if_pos h4] at hfind
                    injection hfind with hfind
                    subst hfind
                    exact ⟨l0, c0, List.mem_cons_self _ _, h4, h1⟩
                  · rw [if_neg h4] at hfind
                    cases hfind

/-- C6: every policy of a successfully built store originates from a
definition of the (effective) definition list, its authorized role set is
exactly the definition's default roles ∪ the normalized roles of the
comma-separated role-override variable ∪ `{"system"}`, `"system"` is always
a member, and the snapshot `describePolicy` returns lists a superset of
default roles ∪ `{"system"}`. -/
theorem allowed_roles_construction (env : EnvMap)
    (defs : List (String × PolicyDefinition)) (m : AdaptiveSecurityManager)
    (loc : String) (p : LocationPolicy)
    (hm : buildManager env (some defs) = Except.ok m)
    (hp : m.policyFor loc = Except.ok p) :
    "system" ∈ p.allowedRoles ∧
    m.describePolicy loc = Except.ok p.snapshot ∧
    ∃ locDef cfg, (locDef, cfg) ∈ effectiveDefinitions (some defs) ∧
      normalizeLocation locDef = normalizeLocation loc ∧
      p.allowedRoles =
        cfg.defaultRoles.getD ∅ ∪ normalizeRoles (envRoleInput env cfg) ∪
          {"system"} ∧
      ∀ r ∈ cfg.defaultRoles.getD ∅ ∪ ({"system"} : Finset String),
        r ∈ p.snapshot.allowedRoles := by
  simp only [buildManager] at hm
  cases hl : loadPolicies env (effectiveDefinitions (some defs)) with
  | error e => simp [hl] at hm
  | ok ps =>
      simp only [hl] at hm
      injection hm with hm
      have mpol : m.policies = ps := by rw [← hm]
      simp only [AdaptiveSecurityManager.policyFor, mpol] at hp
      cases hs : storeLookup ps (normalizeLocation loc) with
      | none => simp [hs] at hp
      | some q =>
          simp only [hs] at hp
          injection hp with hp
          subst hp
          obtain ⟨locDef, cfg, hmem, hnorm, hlp⟩ := storeLookup_loadPolicies hl hs
          obtain ⟨hname, hkid, hroles, hksrc, _⟩ := loadPolicy_ok_elim hlp
          have hsys : "system" ∈ q.allowedRoles := by
            rw [hroles]
            simp only [resolveAllowedRoles]
            exact Finset.mem_union_right _ (Finset.mem_singleton_self _)
          refine ⟨hsys, ?_, locDef, cfg, hmem, hnorm, ?_, ?_⟩
          · simp only [AdaptiveSecurityManager.describePolicy,
              AdaptiveSecurityManager.policyFor, mpol, hs]
          · rw [hroles]
            simp only [resolveAllowedRoles]
          · intro r hr
            show r ∈ sortedRoles q.allowedRoles
            rw [mem_sortedRoles, hroles]
            simp only [resolveAllowedRoles]
            rcases Finset.mem_union.1 hr with hr' | hr'
            · exact Finset.mem_union_left _ (Finset.mem_union_left _ hr')
            · exact Finset.mem_union_right _ hr'

/-- Witness for C6 at a concrete one-location store. -/
theorem allowed_roles_construction_witness :
    buildManager emptyEnv (some wDefsA) = Except.ok wMgrA ∧
    wMgrA.policyFor "w" = Except.ok wPolicyW ∧
    ("system" ∈ wPolicyW.allowedRoles ∧
      wMgrA.describePolicy "w" = Except.ok wPolicyW.snapshot ∧
      ∃ locDef cfg, (locDef, cfg) ∈ effectiveDefinitions (some wDefsA) ∧
        normalizeLocation locDef = normalizeLocation "w" ∧
        wPolicyW.allowedRoles =
          cfg.defaultRoles.getD ∅ ∪ normalizeRoles (envRoleInput emptyEnv cfg) ∪
            {"system"} ∧
        ∀ r ∈ cfg.defaultRoles.getD ∅ ∪ ({"system"} : Finset String),
          r ∈ wPolicyW.snapshot.allowedRoles) :=
  ⟨by decide, by decide,
    allowed_roles_construction emptyEnv wDefsA wMgrA "w" wPolicyW
      (by decide) (by decide)⟩

theorem loadPolicy_except_key {env : EnvMap} {l1 l2 : String}
    {c1 c2 : PolicyDefinition} {p q : LocationPolicy}
    (hl : l1 = l2) (he : c1.envKey = c2.envKey)
    (hr : c1.envRoles = c2.envRoles) (hd : c1.defaultRoles = c2.defaultRoles)
    (hk : c1.keyId = c2.keyId)
    (h1 : loadPolicy env l1 c1 = Except.ok p)
    (h2 : loadPolicy env l2 c2 = Except.ok q) :
    samePolicyExceptKey p q := by
  subst hl
  obtain ⟨n1, k1, a1, s1, _⟩ := loadPolicy_ok_elim h1
  obtain ⟨n2, k2, a2, s2, _⟩ := loadPolicy_ok_elim h2
  refine ⟨n1.trans n2.symm, ?_, ?_, ?_⟩
  · rw [k1, k2]
    simp only [resolveKeyId, hk]
  · rw [s1, s2]
    simp only [resolveKeySource, he]
  · rw [a1, a2]
    simp only [resolveAllowedRoles, envRoleInput, hd, hr]

theorem loadPolicies_except_key {env : EnvMap}
    {defs1 defs2 : List (String × PolicyDefinition)}
    {ps1 ps2 : List (String × LocationPolicy)}
    (hrel : List.Forall₂ sameDefinitionExceptKey defs1 defs2)
    (h1 : loadPolicies env defs1 = Except.ok ps1)
    (h2 : loadPolicies env defs2 = Except.ok ps2) :
    List.Forall₂ (fun a b => a.1 = b.1 ∧ samePolicyExceptKey a.2 b.2) ps1 ps2 := by
  induction hrel generalizing ps1 ps2 with
  | nil =>
      simp only [loadPolicies] at h1 h2
      injection h1 with h1
      injection h2 with h2
      subst h1
      subst h2
      exact List.Forall₂.nil
  | @cons a b as bs hab htl ih =>
      obtain ⟨l1, c1⟩ := a
      obtain ⟨l2, c2⟩ := b
      obtain ⟨hname, he, hr, hd, hk⟩ := hab
      simp only [loadPolicies] at h1 h2
      cases hp1 : loadPolicy env l1 c1 with
      | error e => simp [hp1] at h1
      | ok q1 =>
          cases hp2 : loadPolicy env l2 c2 with
          | error e => simp [hp2] at h2
          | ok q2 =>
              simp only [hp1] at h1
              simp only [hp2] at h2
              cases ht1 : loadPolicies env as with
              | error e => simp [ht1] at h1
              | ok qs1 =>
                  cases ht2 : loadPolicies env bs with
                  | error e => simp [ht2] at h2
                  | ok qs2 =>
                      simp only [ht1] at h1
                      simp only [ht2] at h2
                      injection h1 with h1
                      injection h2 with h2
                      subst h1
                      subst h2
                      refine List.Forall₂.cons ⟨?_, ?_⟩ (ih ht1 ht2)
                      · show normalizeLocation l1 = normalizeLocation l2
                        exact congrArg normalizeLocation hname
                      · exact loadPolicy_except_key hname he hr hd hk hp1 hp2

theorem storeLookup_except_key {ps1 ps2 : List (String × LocationPolicy)}
    (hrel : List.Forall₂
      (fun a b => a.1 = b.1 ∧ samePolicyExceptKey a.2 b.2) ps1 ps2)
    (k : String) :
    (storeLookup ps1 k = none ∧ storeLookup ps2 k = none) ∨
      ∃ p q, storeLookup ps1 k = some p ∧ storeLookup ps2 k = some q ∧
        samePolicyExceptKey p q := by
  induction hrel with
  | nil => exact Or.inl ⟨rfl, rfl⟩
  | @cons a b as bs hab htl ih =>
      obtain ⟨n1, p1⟩ := a
      obtain ⟨n2, p2⟩ := b
      obtain ⟨hn, hpq⟩ := hab
      have hn' : n1 = n2 := hn
      rcases ih with ⟨ha1, ha2⟩ | ⟨p, q, hp, hq, hrel2⟩
      · by_cases hk : n1 = k
        · refine Or.inr ⟨p1, p2, ?_, ?_, hpq⟩
          · simp only [storeLookup, ha1, if_pos hk]
          · simp only [storeLookup, ha2]
            rw [if_pos (hn' ▸ hk)]
        · refine Or.inl ⟨?_, ?_⟩
          · simp only [storeLookup, ha1, if_neg hk]
          · simp only [storeLookup, ha2]
            rw [if_neg (fun hc => hk (hn'.symm ▸ hc))]
      · refine Or.inr ⟨p, q, ?_, ?_, hrel2⟩
        · simp only [storeLookup, hp]
        · simp only [storeLookup, hq]

theorem snapshot_except_key {p q : LocationPolicy}
    (h : samePolicyExceptKey p q) : p.snapshot = q.snapshot := by
  obtain ⟨h1, h2, h3, h4⟩ := h
  simp only [LocationPolicy.snapshot, h1, h2, h3, h4]

/-- C9: `describePolicy` reveals no key material. A policy's snapshot is a
function of its name, key id, key source and allowed roles only; and two
stores built from definition lists identical except for their (valid)
default key material answer `describePolicy` identically at every
location. -/
theorem describe_policy_key_independent (env : EnvMap)
    (defs1 defs2 : List (String × PolicyDefinition))
    (m1 m2 : AdaptiveSecurityManager)
    (hrel : List.Forall₂ sameDefinitionExceptKey defs1 defs2)
    (h1 : buildManager env (some defs1) = Except.ok m1)
    (h2 : buildManager env (some defs2) = Except.ok m2) :
    (∀ loc, m1.describePolicy loc = m2.describePolicy loc) ∧
    (∀ p q : LocationPolicy, p.name = q.name → p.keyId = q.keyId →
        p.keySource = q.keySource → p.allowedRoles = q.allowedRoles →
        p.snapshot = q.snapshot) := by
  refine ⟨?_, fun p q a b c d => snapshot_except_key ⟨a, b, c, d⟩⟩
  cases hrel with
  | nil =>
      have hm : Except.ok m1 = Except.ok m2 := h1.symm.trans h2
      injection hm with hm
      subst hm
      intro loc
      rfl
  | @cons a b as bs hab htl =>
      simp only [buildManager, effectiveDefinitions] at h1 h2
      cases hl1 : loadPolicies env (a :: as) with
      | error e => simp [hl1] at h1
      | ok ps1 =>
          cases hl2 : loadPolicies env (b :: bs) with
          | error e => simp [hl2] at h2
          | ok ps2 =>
              simp only [hl1] at h1
              simp only [hl2] at h2
              injection h1 with h1
              injection h2 with h2
              have hps := loadPolicies_except_key
                (List.Forall₂.cons hab htl) hl1 hl2
              have mp1 : m1.policies = ps1 := by rw [← h1]
              have mp2 : m2.policies = ps2 := by rw [← h2]
              intro loc
              rcases storeLookup_except_key hps (normalizeLocation loc) with
                ⟨hn1, hn2⟩ | ⟨p, q, hp, hq, hpq⟩
              · simp only [AdaptiveSecurityManager.describePolicy,
                  AdaptiveSecurityManager.policyFor, mp1, mp2, hn1, hn2]
              · simp only [AdaptiveSecurityManager.describePolicy,
                  AdaptiveSecurityManager.policyFor, mp1, mp2, hp, hq,
                  snapshot_except_key hpq]

/-- Witness for C9: two one-location stores differing only in key
material. -/
theorem describe_policy_key_independent_witness :
    List.Forall₂ sameDefinitionExceptKey wDefsA wDefsB ∧
    buildManager emptyEnv (some wDefsA) = Except.ok wMgrA ∧
    buildManager emptyEnv (some wDefsB) = Except.ok wMgrB ∧
    ((∀ loc, wMgrA.describePolicy loc = wMgrB.describePolicy loc) ∧
      (∀ p q : LocationPolicy, p.name = q.name → p.keyId = q.keyId →
          p.keySource = q.keySource → p.allowedRoles = q.allowedRoles →
          p.snapshot = q.snapshot)) :=
  ⟨List.Forall₂.cons ⟨rfl, rfl, rfl, rfl, rfl⟩ List.Forall₂.nil,
    by decide, by decide,
    describe_policy_key_independent emptyEnv wDefsA wDefsB wMgrA wMgrB
      (List.Forall₂.cons ⟨rfl, rfl, rfl, rfl, rfl⟩ List.Forall₂.nil)
      (by decide) (by decide)⟩
